import Mathlib

/-!
Shallow embedding of astroARIADNE's `fitter.py` — the parameter-coordination and
nested-sampling orchestration driver — together with proofs about its behaviour.

Conventions of the embedding:
* Python floats are modelled as `Rat` (all arithmetic that the embedded code
  performs on them is exact field arithmetic).
* scipy.stats frozen distributions are modelled by the inductive `Dist`, which
  records the constructor arguments exactly as the source passes them
  (scipy's `uniform(loc, scale)` is the uniform law on `[loc, loc + scale]`).
* Python dicts keyed by parameter name are association lists updated with
  `setKey`, which mirrors dict assignment (replace the key in place, else
  append) and is read with `List.lookup`.
* Fallible Python code (raised exceptions, references to undefined names)
  is modelled with `Except PyError`.
* numpy arrays of parameter flags/values are `List Rat`; `a[-2]` on an array
  of length `n ≥ 2` is index `n - 2`; fancy-index assignment
  `a[np.where(par == order)] = v` is `npWhereSet`.
-/

namespace Ariadne

/-- scipy.stats frozen distributions as constructed by fitter.py, recording the
constructor arguments verbatim.  `empirical file` stands for a pre-computed
prior unpickled from `file` (an opaque percent-point table). -/
inductive Dist where
  | norm (loc scale : Rat)
  | uniform (loc scale : Rat)
  | truncnorm (a b loc scale : Rat)
  | empirical (file : String)
deriving DecidableEq, Repr

/-- Support endpoints of a distribution, where closed-form.  scipy's
`uniform(loc, scale)` is the uniform distribution on `[loc, loc + scale]`. -/
def uniformSupport : Dist → Option (Rat × Rat)
  | .uniform loc scale => some (loc, loc + scale)
  | _ => Option.none

/-- Exceptions that the embedded code can raise.  `priorError par code` is
`PriorError(par, code).raise_()`; `nameError n` is Python's `NameError` on the
undefined name `n`; `keyError k` a dict `KeyError`; `valueError` a failed
unpack/parse; `inputError msg` is `InputError(_, msg).raise_()`. -/
inductive PyError where
  | priorError (par : String) (code : Nat)
  | nameError (name : String)
  | keyError (key : String)
  | valueError
  | inputError (msg : String)
  | notImplementedError
deriving DecidableEq, Repr

/-- Python values fed to attribute setters (only the shapes the setters
distinguish: a bool versus anything else). -/
inductive PyVal where
  | pybool (b : Bool)
  | pystr (s : String)
  | pyint (n : Int)
  | pynone
deriving DecidableEq, Repr

/-- The slice of the external `Star` object that the embedded parts of
fitter.py read: measured temperature and its flag, catalog radius (absent is
`Option.none`), catalog distance, and catalog extinction `Av`.  Fields that
feed only the external isochrone-based log g estimator (luminosity, parallax,
magnitudes) are abstracted into the estimator's result, which the embedding
takes as an explicit `Option (Rat × Rat)` argument. -/
structure Star where
  get_temp : Bool
  temp : Rat
  temp_e : Rat
  rad : Option Rat
  rad_e : Rat
  dist : Rat
  dist_e : Rat
  Av : Rat
deriving DecidableEq, Repr

/-- Dict assignment `m[k] = v` on an association list: replace the first
binding of `k` in place, or append a new binding. -/
def setKey {α : Type} : List (String × α) → String → α → List (String × α)
  | [], k, v => [(k, v)]
  | (k1, v1) :: rest, k, v =>
    if k1 == k then (k, v) :: rest else (k1, v1) :: setKey rest k v

/-- Physical-mode canonical parameter order (fitter.py lines 220-226). -/
def orderPhys : List String :=
  ["teff", "logg", "z", "dist", "rad", "Av", "inflation"]

/-- Normalized-mode canonical parameter order (fitter.py line 228). -/
def orderNorm : List String :=
  ["teff", "logg", "z", "norm", "Av", "inflation"]

/-- Accepted parameter names in prior files (fitter.py lines 331-335). -/
def param_list : List String :=
  ["teff", "logg", "z", "dist", "rad", "norm", "Av", "inflation"]

/-- Python `int()` applied to an exact rational: truncation toward zero. -/
def pyInt (q : Rat) : Int :=
  if 0 ≤ q then q.floor else -((-q).floor)

/-- `Fitter.get_ndim` (fitter.py lines 254-258): `7 if not norm else 6` minus
the sum of the coordinator vector, converted with `int()`. -/
def get_ndim (nf : Bool) (coordinator : List Rat) : Int :=
  pyInt ((if nf then (6 : Rat) else 7) - coordinator.sum)

/-- Result of `Fitter._default_priors`: the defaults dict (values are
distributions, or Python `None` for a parameter marked fixed, hence
`Option Dist`), the updated coordinator/fixed vectors, and the warnings
emitted along the way. -/
structure DPOut where
  defaults : List (String × Option Dist)
  coordinator : List Rat
  fixed : List Rat
  warnings : List String
deriving DecidableEq, Repr

/-- Modelled from the spec: `teff_prior` is defined in the wildcard-imported
`utils` module, which is absent from src/; per the spec the measured-
temperature-less fallback for `teff` is "a pre-computed empirical prior
(lookup table)", i.e. the unpickled table of `../Datafiles/teff_ppf.pkl`. -/
def teff_prior_teff : Dist := Dist.empirical "../Datafiles/teff_ppf.pkl"

/-- Warning text of the missing-radius fallback (fitter.py lines 308-311). -/
def radWarning : String :=
  "No radius found in Gaia, using default radius prior. Consider fitting the normalization constant instead."

/-- Logg block of `_default_priors` (fitter.py lines 262-291): empirical
pickle when log g estimation is off; otherwise the external estimator's
normal prior, or no entry at all when the estimator returns `None`. -/
def dpLoggStep (estF : Bool) (loggEst : Option (Rat × Rat)) (o : DPOut) : DPOut :=
  { o with defaults :=
      if estF = false then
        setKey o.defaults "logg" (some (Dist.empirical "../Datafiles/logg_ppf.pkl"))
      else
        match loggEst with
        | some (m, s) => setKey o.defaults "logg" (some (Dist.norm m s))
        | Option.none => o.defaults }

/-- Teff block of `_default_priors` (fitter.py lines 292-299): a normal prior
at the measured temperature when available; otherwise the pickled table is
stored and then immediately overwritten by `teff_prior['teff']`. -/
def dpTeffStep (star : Star) (o : DPOut) : DPOut :=
  { o with defaults :=
      if star.get_temp then
        setKey o.defaults "teff" (some (Dist.norm star.temp star.temp_e))
      else
        setKey (setKey o.defaults "teff"
          (some (Dist.empirical "../Datafiles/teff_ppf.pkl"))) "teff" (some teff_prior_teff) }

/-- Metallicity block of `_default_priors` (fitter.py line 300). -/
def dpZStep (o : DPOut) : DPOut :=
  { o with defaults := setKey o.defaults "z" (some (Dist.norm (-0.125) 0.234)) }

/-- Distance/radius (physical mode) or normalization (normalized mode) block
of `_default_priors` (fitter.py lines 301-315); the missing-radius branch
falls back to `st.uniform(0.1, 10)` and warns. -/
def dpRadStep (star : Star) (nf : Bool) (o : DPOut) : DPOut :=
  { o with
    defaults :=
      if nf = false then
        let d := setKey o.defaults "dist" (some (Dist.norm star.dist star.dist_e))
        match star.rad with
        | some r => setKey d "rad" (some (Dist.norm r star.rad_e))
        | Option.none => setKey d "rad" (some (Dist.uniform 0.1 10))
      else
        setKey o.defaults "norm" (some (Dist.truncnorm 0 (1 / 1e-20) 0 1e-20)),
    warnings :=
      if nf = false then
        match star.rad with
        | some _ => o.warnings
        | Option.none => o.warnings ++ [radWarning]
      else o.warnings }

/-- Av block of `_default_priors` (fitter.py lines 316-321): extinction
exactly zero marks `coordinator[-2] = 1`, `fixed[-2] = 0` and stores `None`
under `Av`; otherwise a `st.uniform(0, Av)` prior. -/
def dpAvStep (star : Star) (o : DPOut) : DPOut :=
  { o with
    defaults := setKey o.defaults "Av"
      (if star.Av == 0 then Option.none else some (Dist.uniform 0 star.Av)),
    coordinator :=
      if star.Av == 0 then o.coordinator.set (o.coordinator.length - 2) 1
      else o.coordinator,
    fixed :=
      if star.Av == 0 then o.fixed.set (o.fixed.length - 2) 0 else o.fixed }

/-- Inflation block of `_default_priors` (fitter.py lines 322-323):
`up, low = (5 - 0.5) / 0.5, (0 - 0.5) / 0.5` then
`truncnorm(a=low, b=up, loc=0.5, scale=0.5)`. -/
def dpInflationStep (o : DPOut) : DPOut :=
  { o with defaults := (setKey o.defaults "inflation"
      (some (Dist.truncnorm ((0 - 0.5) / 0.5) ((5 - 0.5) / 0.5) 0.5 0.5))) }

/-- `Fitter._default_priors` (fitter.py lines 260-324), threading the
coordinator/fixed vectors the caller holds in `self`. -/
def default_priors (star : Star) (nf estF : Bool) (loggEst : Option (Rat × Rat))
    (coordinator fixed : List Rat) : DPOut :=
  dpInflationStep (dpAvStep star (dpRadStep star nf (dpZStep (dpTeffStep star
    (dpLoggStep estF loggEst
      { defaults := [], coordinator := coordinator, fixed := fixed, warnings := [] })))))

/-- numpy fancy-index assignment `xs[np.where(par == order)[0]] = v`:
overwrite `xs` at every index where `order` holds `par`. -/
def npWhereSet : List String → String → Rat → List Rat → List Rat
  | _, _, _, [] => []
  | [], _, _, xs => xs
  | o :: os, par, v, x :: xs =>
    (if o == par then v else x) :: npWhereSet os par v xs

/-- Python's `str.lower()` (charwise ASCII lowercasing, which covers the
prior-kind keywords the file format uses). -/
def pyLower (s : String) : String := String.mk (s.data.map Char.toLower)

/-- A parsed prior-file row: parameter name, prior kind, and the bounds
column's comma-separated floats (column 3 of the file, already split on
commas and converted with `float`). -/
abbrev Row := String × String × List Rat

/-- Mutable state of the `create_priors` row loop: the prior dict being
built and `self.coordinator` / `self.fixed`. -/
structure CPState where
  prior_dict : List (String × Option Dist)
  coordinator : List Rat
  fixed : List Rat
deriving DecidableEq, Repr

/-- One iteration of the row loop of `Fitter.create_priors` (fitter.py lines
341-366).  Branches mirror the source: name validation, normalized-mode
`dist`/`rad` rejection, then case-insensitive kind dispatch.  In the
`truncatednormal` branch the source assigns to `priot_dict`, a name defined
nowhere (a misspelling of `prior_dict`), so Python raises `NameError` there;
arity mismatches of the bounds column raise `ValueError` at unpack time.  A
row whose kind matches no branch is silently ignored. -/
def process_row (nf : Bool) (order : List String)
    (defaults : List (String × Option Dist)) (st : CPState) (row : Row) :
    Except PyError CPState :=
  match row with
  | (par, pri, bo) =>
    if param_list.contains par = false then .error (.priorError par 0)
    else if nf && (par == "dist" || par == "rad") then .error (.priorError par 1)
    else if pyLower pri == "uniform" then
      match bo with
      | [a, b] =>
        .ok { st with prior_dict := setKey st.prior_dict par (some (Dist.uniform a (b - a))) }
      | _ => .error .valueError
    else if pyLower pri == "normal" then
      match bo with
      | [mu, sig] =>
        .ok { st with prior_dict := setKey st.prior_dict par (some (Dist.norm mu sig)) }
      | _ => .error .valueError
    else if pyLower pri == "truncatednormal" then
      match bo with
      | [_mu, _sig, _up, _low] => .error (.nameError "priot_dict")
      | _ => .error .valueError
    else if pyLower pri == "default" then
      match List.lookup par defaults with
      | some v => .ok { st with prior_dict := setKey st.prior_dict par v }
      | Option.none => .error (.keyError par)
    else if pyLower pri == "fixed" then
      match bo with
      | [v] =>
        .ok { st with
              coordinator := npWhereSet order par 1 st.coordinator,
              fixed := npWhereSet order par v st.fixed }
      | _ => .error .valueError
    else .ok st

/-- The row loop of `create_priors`, folded over the parsed file. -/
def cpGo (nf : Bool) (order : List String) (defaults : List (String × Option Dist)) :
    CPState → List Row → Except PyError CPState
  | st, [] => .ok st
  | st, r :: rs =>
    match process_row nf order defaults st r with
    | .error e => .error e
    | .ok st2 => cpGo nf order defaults st2 rs

/-- Result of `Fitter.create_priors`: `self.priors` plus the (possibly
updated) coordinator/fixed vectors and emitted warnings. -/
structure CPOut where
  priors : List (String × Option Dist)
  coordinator : List Rat
  fixed : List Rat
  warnings : List String
deriving DecidableEq, Repr

/-- `Fitter.create_priors` (fitter.py lines 326-371): with a prior file, run
the row loop on a fresh dict; with none, warn and use the defaults dict. -/
def create_priors (nf : Bool) (order : List String)
    (defaults : List (String × Option Dist)) (coordinator fixed : List Rat)
    (priorfile : Option (List Row)) : Except PyError CPOut :=
  match priorfile with
  | some rows =>
    match cpGo nf order defaults
        { prior_dict := [], coordinator := coordinator, fixed := fixed } rows with
    | .error e => .error e
    | .ok st =>
      .ok { priors := st.prior_dict, coordinator := st.coordinator,
            fixed := st.fixed, warnings := [] }
  | Option.none =>
    .ok { priors := defaults, coordinator := coordinator, fixed := fixed,
          warnings := ["No priorfile detected. Using default priors."] }

/-- State assembled by `Fitter.initialize` (fitter.py lines 201-252). -/
structure FitterState where
  norm : Bool
  order : List String
  coordinator : List Rat
  fixed : List Rat
  default_priors : List (String × Option Dist)
  priors : List (String × Option Dist)
  warnings : List String
  ndim : Int
deriving DecidableEq, Repr

/-- `Fitter.initialize` (fitter.py lines 201-252): require a star, pick the
canonical order for the mode, zero-initialize coordinator/fixed at
`npars = 7 if not norm else 6`, build default priors, run `create_priors`,
then compute `ndim` with `get_ndim`.  The external log g estimator's result
is passed in as `loggEst`, and the parsed prior file as `priorfile`. -/
def initFitter (star : Option Star) (nf estF : Bool) (loggEst : Option (Rat × Rat))
    (priorfile : Option (List Row)) : Except PyError FitterState :=
  match star with
  | Option.none => .error (.inputError "No star is detected. Please create an instance of Star.")
  | some s =>
    let order := if nf then orderNorm else orderPhys
    let npars := if nf then 6 else 7
    let dp := default_priors s nf estF loggEst
      (List.replicate npars 0) (List.replicate npars 0)
    match create_priors nf order dp.defaults dp.coordinator dp.fixed priorfile with
    | .error e => .error e
    | .ok cp =>
      .ok { norm := nf, order := order, coordinator := cp.coordinator,
            fixed := cp.fixed, default_priors := dp.defaults, priors := cp.priors,
            warnings := dp.warnings ++ cp.warnings,
            ndim := get_ndim nf cp.coordinator }

/-- The `Fitter.norm` setter (fitter.py lines 114-118): a bool is stored; a
non-bool takes the error branch, which references `rInputError` — a name
defined neither in fitter.py nor in the `Error` module it wildcard-imports
(modelled from the spec: the Error module, absent from src/, supplies the
`InputError`, `InstanceError` and `PriorError` classes used elsewhere in
fitter.py and nothing named `rInputError`) — so Python raises `NameError`
before any `InputError` could be constructed. -/
def norm_setter (v : PyVal) : Except PyError Bool :=
  match v with
  | .pybool b => .ok b
  | _ => .error (.nameError "rInputError")

/-- The `Fitter.bma` setter (fitter.py lines 143-146): unconditionally
`raise NotImplementedError()`. -/
def bma_setter (_v : PyVal) : Except PyError Unit :=
  .error .notImplementedError

/-- Insert into a sorted list, keeping ascending order. -/
def insertSorted (x : Rat) : List Rat → List Rat
  | [] => [x]
  | y :: ys => if x ≤ y then x :: y :: ys else y :: insertSorted x ys

/-- Ascending insertion sort. -/
def sortRats (xs : List Rat) : List Rat :=
  xs.foldr insertSorted []

/-- `scipy.median`: sort ascending; middle element for odd length, mean of
the two middle elements for even length. -/
def median (xs : List Rat) : Rat :=
  let s := sortRats xs
  let n := xs.length
  if n % 2 = 1 then s.getD (n / 2) 0
  else (s.getD (n / 2 - 1) 0 + s.getD (n / 2) 0) / 2

/-- Column `j` of the posterior-sample matrix, `posterior_samples[:, j]`
(rows are samples). -/
def colAt (ps : List (List Rat)) (j : Nat) : List Rat :=
  ps.map (fun row => row.getD j 0)

/-- Helper of `build_params`: walk zipped (coordinator, fixed) pairs,
emitting the fixed value at fixed slots and consuming the free vector at
free slots. -/
def bpGo : List (Rat × Rat) → List Rat → List Rat
  | [], _ => []
  | (ci, fi) :: rest, cube =>
    if ci == 0 then cube.headD 0 :: bpGo rest cube.tail
    else fi :: bpGo rest cube

/-- Modelled from the spec: `build_params` (the Parameter Vector Builder of
spec section 4.2) lives in the wildcard-imported `sed_library`/`utils`
modules, which are absent from src/.  Per the spec it walks the canonical
order; at an index the Coordinator marks fixed it takes the value from
Fixed, otherwise the next unconsumed entry of the free vector.  The spec
assumes the free vector has exactly one entry per free slot; the mode flag
is accepted for signature fidelity but does not alter the walk. -/
def build_params (cube : List Rat) (c f : List Rat) (_nf : Bool) : List Rat :=
  bpGo (c.zip f) cube

/-- An entry of the persisted `posterior_samples` dict: free parameters get
the full sample column (a numpy array), while the fixed branch of the save
loop stores the bare scalar `self.fixed[i]`. -/
inductive PSEntry where
  | col (xs : List Rat)
  | scalar (x : Rat)
deriving DecidableEq, Repr

/-- First save loop (fitter.py lines 485-491), `for i, param in
enumerate(order)` carried as the explicit index `i` with free-column counter
`j`: free parameters store their sample column, fixed ones the scalar
`self.fixed[i]`. -/
def psGo (ps : List (List Rat)) (c f : List Rat) :
    List String → Nat → Nat → List (String × PSEntry) → List (String × PSEntry)
  | [], _, _, acc => acc
  | param :: rest, i, j, acc =>
    if c.getD i 0 = 0 then
      psGo ps c f rest (i + 1) (j + 1) (setKey acc param (.col (colAt ps j)))
    else
      psGo ps c f rest (i + 1) j (setKey acc param (.scalar (f.getD i 0)))

/-- Second save loop (fitter.py lines 502-517): rebuilds the free entries of
`posterior_samples`, fills `best_fit` with the per-column median (free) or
the fixed value, and appends `best_theta[i] = out['best_fit'][param]`. -/
def bfGo (ps : List (List Rat)) (c f : List Rat) :
    List String → Nat → Nat → List (String × PSEntry) → List (String × Rat) →
      List Rat → List (String × PSEntry) × List (String × Rat) × List Rat
  | [], _, _, psAcc, bfAcc, th => (psAcc, bfAcc, th)
  | param :: rest, i, j, psAcc, bfAcc, th =>
    if c.getD i 0 = 0 then
      bfGo ps c f rest (i + 1) (j + 1)
        (setKey psAcc param (.col (colAt ps j)))
        (setKey bfAcc param (median (colAt ps j)))
        (th ++ [median (colAt ps j)])
    else
      bfGo ps c f rest (i + 1) j psAcc
        (setKey bfAcc param (f.getD i 0))
        (th ++ [f.getD i 0])

/-- The dictionary `Fitter.save` persists (fitter.py lines 472-527),
restricted to the parts the claims are about.  The `loglike` entry that the
source stores inside `posterior_samples` (a float array, unlike the other
entries) is carried as its own field, and `out['best_fit']['likelihood']`
as `best_fit_likelihood`. -/
structure SaveOut where
  posterior_samples : List (String × PSEntry)
  loglike : List Rat
  best_fit : List (String × Rat)
  best_fit_likelihood : Rat
  best_theta : List Rat

/-- The result-record assembly of `Fitter.save` (fitter.py lines 484-519).
`ps` is the equal-weight posterior-sample matrix returned by
`dynesty_results`/`multinest_results` (rows are samples, columns are the
free parameters in canonical free-slot order); `ll` is the external
`log_likelihood` collaborator with the star/interpolators/mode already
bound. -/
def saveModel (order : List String) (c f : List Rat) (ps : List (List Rat))
    (ll : List Rat → Rat) (nf : Bool) : SaveOut :=
  let ps1 := psGo ps c f order 0 0 []
  let lls := ps.map (fun row => ll (build_params row c f nf))
  let r := bfGo ps c f order 0 0 ps1 [] []
  { posterior_samples := r.1, loglike := lls, best_fit := r.2.1,
    best_fit_likelihood := ll r.2.2, best_theta := r.2.2 }

/-- Number of free slots among the `k` coordinator entries starting at
absolute index `i` (the value of the save loops' column counter `j` after
those entries, when started at `j = 0`). -/
def freeCountFrom (c : List Rat) (i : Nat) : Nat → Nat
  | 0 => 0
  | k + 1 => (if c.getD i 0 = 0 then 1 else 0) + freeCountFrom c (i + 1) k

/-- The values the second save loop appends to `best_theta`, in traversal
order (used to reason about `bfGo`). -/
def bfThetaVals (ps : List (List Rat)) (c f : List Rat) :
    List String → Nat → Nat → List Rat
  | [], _, _ => []
  | _ :: rest, i, j =>
    if c.getD i 0 = 0 then median (colAt ps j) :: bfThetaVals ps c f rest (i + 1) (j + 1)
    else f.getD i 0 :: bfThetaVals ps c f rest (i + 1) j

/-- Decidable equality on `Except`, for evaluating embedded computations in
closed statements. -/
instance instExceptDecEq {e a : Type} [DecidableEq e] [DecidableEq a] :
    DecidableEq (Except e a) := fun x y =>
  match x, y with
  | .error u, .error w =>
    if h : u = w then .isTrue (congrArg Except.error h)
    else .isFalse (fun q => h ((Except.error.injEq _ _).mp q))
  | .error _, .ok _ => .isFalse (fun q => Except.noConfusion q)
  | .ok _, .error _ => .isFalse (fun q => Except.noConfusion q)
  | .ok u, .ok w =>
    if h : u = w then .isTrue (congrArg Except.ok h)
    else .isFalse (fun q => h ((Except.ok.injEq _ _).mp q))

/-! ### Concrete data used to exercise the embedding -/

/-- A sun-like star with measured temperature, catalog radius and zero
catalog extinction. -/
def star0 : Star :=
  { get_temp := true, temp := 5770, temp_e := 100, rad := some 1, rad_e := 0.1,
    dist := 10, dist_e := 0.1, Av := 0 }

/-- A star with no catalog radius (and nonzero extinction). -/
def starNoRad : Star :=
  { get_temp := true, temp := 4400, temp_e := 80, rad := Option.none, rad_e := 0,
    dist := 25, dist_e := 0.2, Av := 0.05 }

/-- Fallback record for extracting a concrete `initFitter` result. -/
def fsFallback : FitterState :=
  { norm := false, order := [], coordinator := [], fixed := [], default_priors := [],
    priors := [], warnings := [], ndim := 0 }

/-- The concrete state `initFitter` produces for `star0` in physical mode
with a prior file fixing `rad`. -/
def fsDemo : FitterState :=
  ((initFitter (some star0) false false Option.none
      (some [("rad", "fixed", [1])])).toOption).getD fsFallback

/-- A fresh physical-mode `create_priors` loop state. -/
def cpState7 : CPState :=
  { prior_dict := [], coordinator := List.replicate 7 0, fixed := List.replicate 7 0 }

/-- Physical-mode coordinator with `Av` (index 5) fixed, as `initialize`
plus `_default_priors` produce it for a zero-extinction star. -/
def cDemo : List Rat := [0, 0, 0, 0, 0, 1, 0]

/-- The matching fixed-values vector (Av fixed at 0). -/
def fDemo : List Rat := List.replicate 7 0

/-- Two synthetic equal-weight posterior samples over the six free
parameters of `cDemo`. -/
def psDemo : List (List Rat) := [[1, 2, 3, 4, 5, 6], [7, 8, 9, 10, 11, 12]]

/-- A concrete stand-in for the external log-likelihood collaborator. -/
def llDemo (xs : List Rat) : Rat := xs.sum

/-! ### Helper lemmas about the embedding -/

theorem string_beq_symm_false {a b : String} (h : (a == b) = false) : (b == a) = false := by
  simp only [beq_eq_false_iff_ne] at *
  exact h.symm

theorem lookup_setKey_self {α : Type} (m : List (String × α)) (k : String) (v : α) :
    List.lookup k (setKey m k v) = some v := by
  induction m with
  | nil => simp [setKey, List.lookup]
  | cons p rest ih =>
    obtain ⟨k1, v1⟩ := p
    by_cases hk : (k1 == k) = true
    · simp [setKey, hk, List.lookup]
    · have hk' : (k1 == k) = false := by simpa using hk
      simp [setKey, hk', List.lookup, string_beq_symm_false hk', ih]

theorem lookup_setKey_ne {α : Type} (m : List (String × α)) (k k' : String) (v : α)
    (h : (k == k') = false) : List.lookup k (setKey m k' v) = List.lookup k m := by
  induction m with
  | nil => simp [setKey, List.lookup, h]
  | cons p rest ih =>
    obtain ⟨k1, v1⟩ := p
    by_cases hk : (k1 == k') = true
    · have hkk : k1 = k' := by simpa using hk
      subst hkk
      simp [setKey, List.lookup, h]
    · have hk' : (k1 == k') = false := by simpa using hk
      by_cases hk1 : (k == k1) = true
      · simp [setKey, hk', List.lookup, hk1]
      · have hk1' : (k == k1) = false := by simpa using hk1
        simp [setKey, hk', List.lookup, hk1', ih]

theorem npWhereSet_length (par : String) (v : Rat) :
    ∀ (ord : List String) (xs : List Rat), (npWhereSet ord par v xs).length = xs.length := by
  intro ord
  induction ord with
  | nil => intro xs; cases xs <;> rfl
  | cons o os ih =>
    intro xs
    cases xs with
    | nil => rfl
    | cons x xs => simp [npWhereSet, ih]

theorem npWhereSet_mem (par : String) (v : Rat) :
    ∀ (ord : List String) (xs : List Rat) (y : Rat),
      y ∈ npWhereSet ord par v xs → y = v ∨ y ∈ xs := by
  intro ord
  induction ord with
  | nil =>
    intro xs y hy
    cases xs with
    | nil => simp [npWhereSet] at hy
    | cons x xs => exact Or.inr hy
  | cons o os ih =>
    intro xs y hy
    cases xs with
    | nil => simp [npWhereSet] at hy
    | cons x xs =>
      simp only [npWhereSet, List.mem_cons] at hy
      rcases hy with hy | hy
      · by_cases ho : (o == par) = true
        · simp [ho] at hy; exact Or.inl hy
        · have ho' : (o == par) = false := by simpa using ho
          simp [ho'] at hy
          exact Or.inr (by simp [hy])
      · rcases ih xs y hy with h1 | h1
        · exact Or.inl h1
        · exact Or.inr (List.mem_cons_of_mem _ h1)

theorem npWhereSet_not_mem (par : String) (v : Rat) :
    ∀ (ord : List String) (xs : List Rat), par ∉ ord → npWhereSet ord par v xs = xs := by
  intro ord
  induction ord with
  | nil => intro xs _; cases xs <;> rfl
  | cons o os ih =>
    intro xs hpar
    cases xs with
    | nil => rfl
    | cons x xs =>
      have ho : o ≠ par := fun e => hpar (by simp [e])
      have ho' : (o == par) = false := by simpa using ho
      simp [npWhereSet, ho', ih xs (fun hm => hpar (List.mem_cons_of_mem _ hm))]

theorem rat_floor_intCast (z : Int) : Rat.floor ((z : Rat)) = z := by
  have h : Rat.floor ((z : Rat)) = Int.floor ((z : Rat)) := rfl
  rw [h, Int.floor_intCast]

theorem pyInt_intCast (z : Int) : pyInt ((z : Rat)) = z := by
  unfold pyInt
  by_cases hz : (0 : Rat) ≤ (z : Rat)
  · simp [hz, rat_floor_intCast]
  · have hcast : (-(z : Rat)) = ((-z : Int) : Rat) := by push_cast; ring
    rw [if_neg hz, hcast, rat_floor_intCast, neg_neg]

/-- A coordinator vector is valid when it has the canonical length and every
entry is 0 or 1. -/
def coordInv (n : Nat) (c : List Rat) : Prop :=
  c.length = n ∧ ∀ x ∈ c, x = 0 ∨ x = 1

theorem sum01 : ∀ (l : List Rat), (∀ x ∈ l, x = 0 ∨ x = 1) →
    ∃ k : Nat, l.sum = (k : Rat) ∧ k ≤ l.length := by
  intro l
  induction l with
  | nil => intro _; exact ⟨0, by simp⟩
  | cons x xs ih =>
    intro hmem
    obtain ⟨k, hk, hkle⟩ := ih (fun y hy => hmem y (List.mem_cons_of_mem _ hy))
    rcases hmem x (List.mem_cons_self _ _) with hx | hx
    · exact ⟨k, by simp [hx, hk], by simpa using Nat.le_succ_of_le hkle⟩
    · refine ⟨k + 1, ?_, by simpa using Nat.succ_le_succ hkle⟩
      simp [hx, hk]
      ring

theorem coordInv_replicate (n : Nat) : coordInv n (List.replicate n (0 : Rat)) := by
  constructor
  · simp
  · intro x hx
    exact Or.inl (by simp_all [List.mem_replicate])

theorem coordInv_set_one {n : Nat} {c : List Rat} (hc : coordInv n c) (i : Nat) :
    coordInv n (c.set i 1) := by
  obtain ⟨hlen, hmem⟩ := hc
  constructor
  · simp [hlen]
  · intro x hx
    rcases List.mem_or_eq_of_mem_set hx with h1 | h1
    · exact hmem x h1
    · exact Or.inr h1

theorem process_row_coordInv {nf : Bool} {ord : List String}
    {d : List (String × Option Dist)} {st st2 : CPState} {r : Row} {n : Nat}
    (h : process_row nf ord d st r = .ok st2) (hc : coordInv n st.coordinator) :
    coordInv n st2.coordinator := by
  obtain ⟨par, pri, bo⟩ := r
  simp only [process_row] at h
  split at h
  · exact absurd h (by simp)
  split at h
  · exact absurd h (by simp)
  split at h
  · split at h
    · obtain rfl := (Except.ok.injEq _ _).mp h
      exact hc
    · exact absurd h (by simp)
  split at h
  · split at h
    · obtain rfl := (Except.ok.injEq _ _).mp h
      exact hc
    · exact absurd h (by simp)
  split at h
  · split at h <;> exact absurd h (by simp)
  split at h
  · split at h
    · obtain rfl := (Except.ok.injEq _ _).mp h
      exact hc
    · exact absurd h (by simp)
  split at h
  · split at h
    · obtain rfl := (Except.ok.injEq _ _).mp h
      obtain ⟨hlen, hmem⟩ := hc
      constructor
      · simpa [npWhereSet_length] using hlen
      · intro x hx
        rcases npWhereSet_mem par 1 ord st.coordinator x hx with h1 | h1
        · exact Or.inr h1
        · exact hmem x h1
    · exact absurd h (by simp)
  · obtain rfl := (Except.ok.injEq _ _).mp h
    exact hc

theorem cpGo_coordInv {nf : Bool} {ord : List String} {d : List (String × Option Dist)}
    {n : Nat} :
    ∀ {rows : List Row} {st st2 : CPState},
      cpGo nf ord d st rows = .ok st2 → coordInv n st.coordinator →
      coordInv n st2.coordinator := by
  intro rows
  induction rows with
  | nil =>
    intro st st2 h hc
    obtain rfl := (Except.ok.injEq _ _).mp h
    exact hc
  | cons r rs ih =>
    intro st st2 h hc
    simp only [cpGo] at h
    split at h
    · exact absurd h (by simp)
    case _ stm heq => exact ih h (process_row_coordInv heq hc)

theorem create_priors_coordInv {nf : Bool} {ord : List String}
    {d : List (String × Option Dist)} {c f : List Rat} {pf : Option (List Row)}
    {cp : CPOut} {n : Nat}
    (h : create_priors nf ord d c f pf = .ok cp) (hc : coordInv n c) :
    coordInv n cp.coordinator := by
  unfold create_priors at h
  split at h
  · split at h
    · exact absurd h (by simp)
    case _ st heq =>
      obtain rfl := (Except.ok.injEq _ _).mp h
      exact cpGo_coordInv heq hc
  · obtain rfl := (Except.ok.injEq _ _).mp h
    exact hc

theorem default_priors_coordinator (star : Star) (nf estF : Bool)
    (lE : Option (Rat × Rat)) (c f : List Rat) :
    (default_priors star nf estF lE c f).coordinator =
      if star.Av == 0 then c.set (c.length - 2) 1 else c := rfl

theorem default_priors_fixed (star : Star) (nf estF : Bool)
    (lE : Option (Rat × Rat)) (c f : List Rat) :
    (default_priors star nf estF lE c f).fixed =
      if star.Av == 0 then f.set (f.length - 2) 0 else f := rfl

theorem default_priors_coordInv (star : Star) (nf estF : Bool)
    (lE : Option (Rat × Rat)) {n : Nat} {c : List Rat} (f : List Rat)
    (hc : coordInv n c) :
    coordInv n (default_priors star nf estF lE c f).coordinator := by
  rw [default_priors_coordinator]
  split
  · exact coordInv_set_one hc _
  · exact hc

theorem dpInflationStep_defaults (o : DPOut) :
    (dpInflationStep o).defaults = setKey o.defaults "inflation"
      (some (Dist.truncnorm ((0 - 0.5) / 0.5) ((5 - 0.5) / 0.5) 0.5 0.5)) := rfl

theorem dpAvStep_defaults (star : Star) (o : DPOut) :
    (dpAvStep star o).defaults = setKey o.defaults "Av"
      (if star.Av == 0 then Option.none else some (Dist.uniform 0 star.Av)) := rfl

theorem dpZStep_defaults (o : DPOut) :
    (dpZStep o).defaults = setKey o.defaults "z" (some (Dist.norm (-0.125) 0.234)) := rfl

theorem dpRadStep_defaults_phys_some (star : Star) (o : DPOut) (r : Rat)
    (hr : star.rad = some r) :
    (dpRadStep star false o).defaults =
      setKey (setKey o.defaults "dist" (some (Dist.norm star.dist star.dist_e)))
        "rad" (some (Dist.norm r star.rad_e)) := by
  simp [dpRadStep, hr]

theorem dpRadStep_defaults_phys_none (star : Star) (o : DPOut)
    (hr : star.rad = Option.none) :
    (dpRadStep star false o).defaults =
      setKey (setKey o.defaults "dist" (some (Dist.norm star.dist star.dist_e)))
        "rad" (some (Dist.uniform 0.1 10)) := by
  simp [dpRadStep, hr]

theorem dpRadStep_defaults_nm (star : Star) (o : DPOut) :
    (dpRadStep star true o).defaults =
      setKey o.defaults "norm" (some (Dist.truncnorm 0 (1 / 1e-20) 0 1e-20)) := rfl

theorem dpTeffStep_lookup (star : Star) (o : DPOut) :
    List.lookup "teff" (dpTeffStep star o).defaults =
      some (some (if star.get_temp then Dist.norm star.temp star.temp_e
                  else teff_prior_teff)) := by
  cases hg : star.get_temp with
  | true => simp [dpTeffStep, hg, lookup_setKey_self]
  | false => simp [dpTeffStep, hg, lookup_setKey_self]

theorem default_priors_lookup_Av (star : Star) (nf estF : Bool)
    (lE : Option (Rat × Rat)) (c f : List Rat) :
    List.lookup "Av" (default_priors star nf estF lE c f).defaults =
      some (if star.Av == 0 then Option.none else some (Dist.uniform 0 star.Av)) := by
  unfold default_priors
  rw [dpInflationStep_defaults, dpAvStep_defaults,
      lookup_setKey_ne _ "Av" "inflation" _ (by decide), lookup_setKey_self]

theorem default_priors_lookup_teff (star : Star) (nf estF : Bool)
    (lE : Option (Rat × Rat)) (c f : List Rat) :
    List.lookup "teff" (default_priors star nf estF lE c f).defaults =
      some (some (if star.get_temp then Dist.norm star.temp star.temp_e
                  else teff_prior_teff)) := by
  unfold default_priors
  rw [dpInflationStep_defaults, dpAvStep_defaults,
      lookup_setKey_ne _ "teff" "inflation" _ (by decide),
      lookup_setKey_ne _ "teff" "Av" _ (by decide)]
  cases nf with
  | false =>
    cases hr : star.rad with
    | none =>
      rw [dpRadStep_defaults_phys_none star _ hr,
          lookup_setKey_ne _ "teff" "rad" _ (by decide),
          lookup_setKey_ne _ "teff" "dist" _ (by decide),
          dpZStep_defaults, lookup_setKey_ne _ "teff" "z" _ (by decide),
          dpTeffStep_lookup]
    | some r =>
      rw [dpRadStep_defaults_phys_some star _ r hr,
          lookup_setKey_ne _ "teff" "rad" _ (by decide),
          lookup_setKey_ne _ "teff" "dist" _ (by decide),
          dpZStep_defaults, lookup_setKey_ne _ "teff" "z" _ (by decide),
          dpTeffStep_lookup]
  | true =>
    rw [dpRadStep_defaults_nm,
        lookup_setKey_ne _ "teff" "norm" _ (by decide),
        dpZStep_defaults, lookup_setKey_ne _ "teff" "z" _ (by decide),
        dpTeffStep_lookup]

theorem default_priors_lookup_rad_none (star : Star) (estF : Bool)
    (lE : Option (Rat × Rat)) (c f : List Rat) (hr : star.rad = Option.none) :
    List.lookup "rad" (default_priors star false estF lE c f).defaults =
      some (some (Dist.uniform 0.1 10)) := by
  unfold default_priors
  rw [dpInflationStep_defaults, dpAvStep_defaults,
      lookup_setKey_ne _ "rad" "inflation" _ (by decide),
      lookup_setKey_ne _ "rad" "Av" _ (by decide),
      dpRadStep_defaults_phys_none star _ hr, lookup_setKey_self]

theorem default_priors_warnings (star : Star) (nf estF : Bool)
    (lE : Option (Rat × Rat)) (c f : List Rat) :
    (default_priors star nf estF lE c f).warnings =
      if nf = false then
        (match star.rad with
         | some _ => ([] : List String)
         | Option.none => [radWarning])
      else [] := by
  cases nf with
  | false =>
    cases hr : star.rad with
    | none => simp [default_priors, dpInflationStep, dpAvStep, dpRadStep, dpZStep,
        dpTeffStep, dpLoggStep, hr]
    | some r => simp [default_priors, dpInflationStep, dpAvStep, dpRadStep, dpZStep,
        dpTeffStep, dpLoggStep, hr]
  | true =>
    simp [default_priors, dpInflationStep, dpAvStep, dpRadStep, dpZStep,
      dpTeffStep, dpLoggStep]

theorem initFitter_no_priorfile_ok (star : Star) (nf estF : Bool)
    (lE : Option (Rat × Rat)) :
    (initFitter (some star) nf estF lE Option.none).isOk = true := rfl

theorem ndim_aux (nf : Bool) {cp : List Rat} {npars : Nat}
    (hif : (if nf then (6 : Rat) else 7) = (npars : Rat))
    (hinv : coordInv npars cp) :
    ((get_ndim nf cp : Int) : Rat) = (npars : Rat) - cp.sum ∧ 0 ≤ get_ndim nf cp := by
  obtain ⟨hlen, hmem⟩ := hinv
  obtain ⟨k, hsum, hkle⟩ := sum01 cp hmem
  rw [hlen] at hkle
  have hq : (if nf then (6 : Rat) else 7) - cp.sum =
      (((npars : Int) - (k : Int) : Int) : Rat) := by
    rw [hif, hsum]; push_cast; ring
  constructor
  · rw [get_ndim, hq, pyInt_intCast, hsum]
    push_cast; ring
  · rw [get_ndim, hq, pyInt_intCast]
    omega

theorem colAt_length (ps : List (List Rat)) (j : Nat) :
    (colAt ps j).length = ps.length := by
  simp [colAt]

theorem freeCountFrom_zero (c : List Rat) (i : Nat) : freeCountFrom c i 0 = 0 := rfl

theorem freeCountFrom_succ_true (c : List Rat) (i k : Nat) (h : c.getD i 0 = 0) :
    freeCountFrom c i (k + 1) = 1 + freeCountFrom c (i + 1) k := by
  simp only [freeCountFrom]
  rw [if_pos h]

theorem freeCountFrom_succ_false (c : List Rat) (i k : Nat) (h : ¬(c.getD i 0 = 0)) :
    freeCountFrom c i (k + 1) = freeCountFrom c (i + 1) k := by
  simp only [freeCountFrom]
  rw [if_neg h]
  simp

theorem bfGo_bf_stable (ps : List (List Rat)) (c f : List Rat) :
    ∀ (ord : List String) (i j : Nat) (psA : List (String × PSEntry))
      (bfA : List (String × Rat)) (th : List Rat) (p : String), p ∉ ord →
      List.lookup p (bfGo ps c f ord i j psA bfA th).2.1 = List.lookup p bfA := by
  intro ord
  induction ord with
  | nil => intro i j psA bfA th p _; rfl
  | cons q rest ih =>
    intro i j psA bfA th p hp
    have hpq : (p == q) = false := by
      simp only [beq_eq_false_iff_ne]
      exact fun e => hp (by simp [e])
    have hprest : p ∉ rest := fun hm => hp (List.mem_cons_of_mem _ hm)
    by_cases hcond : c.getD i 0 = 0
    · simp only [bfGo]
      rw [if_pos hcond, ih _ _ _ _ _ _ hprest, lookup_setKey_ne _ _ _ _ hpq]
    · simp only [bfGo]
      rw [if_neg hcond, ih _ _ _ _ _ _ hprest, lookup_setKey_ne _ _ _ _ hpq]

theorem bfGo_ps_stable (ps : List (List Rat)) (c f : List Rat) :
    ∀ (ord : List String) (i j : Nat) (psA : List (String × PSEntry))
      (bfA : List (String × Rat)) (th : List Rat) (p : String), p ∉ ord →
      List.lookup p (bfGo ps c f ord i j psA bfA th).1 = List.lookup p psA := by
  intro ord
  induction ord with
  | nil => intro i j psA bfA th p _; rfl
  | cons q rest ih =>
    intro i j psA bfA th p hp
    have hpq : (p == q) = false := by
      simp only [beq_eq_false_iff_ne]
      exact fun e => hp (by simp [e])
    have hprest : p ∉ rest := fun hm => hp (List.mem_cons_of_mem _ hm)
    by_cases hcond : c.getD i 0 = 0
    · simp only [bfGo]
      rw [if_pos hcond, ih _ _ _ _ _ _ hprest, lookup_setKey_ne _ _ _ _ hpq]
    · simp only [bfGo]
      rw [if_neg hcond, ih _ _ _ _ _ _ hprest]

theorem psGo_stable (ps : List (List Rat)) (c f : List Rat) :
    ∀ (ord : List String) (i j : Nat) (acc : List (String × PSEntry)) (p : String),
      p ∉ ord →
      List.lookup p (psGo ps c f ord i j acc) = List.lookup p acc := by
  intro ord
  induction ord with
  | nil => intro i j acc p _; rfl
  | cons q rest ih =>
    intro i j acc p hp
    have hpq : (p == q) = false := by
      simp only [beq_eq_false_iff_ne]
      exact fun e => hp (by simp [e])
    have hprest : p ∉ rest := fun hm => hp (List.mem_cons_of_mem _ hm)
    by_cases hcond : c.getD i 0 = 0
    · simp only [psGo]
      rw [if_pos hcond, ih _ _ _ _ hprest, lookup_setKey_ne _ _ _ _ hpq]
    · simp only [psGo]
      rw [if_neg hcond, ih _ _ _ _ hprest, lookup_setKey_ne _ _ _ _ hpq]

theorem bfGo_lookup (ps : List (List Rat)) (c f : List Rat) :
    ∀ (ord : List String), ord.Nodup →
      ∀ (i j k : Nat) (psA : List (String × PSEntry)) (bfA : List (String × Rat))
        (th : List Rat), k < ord.length →
        List.lookup (ord.getD k "") (bfGo ps c f ord i j psA bfA th).2.1 =
          some (if c.getD (i + k) 0 = 0 then
                  median (colAt ps (j + freeCountFrom c i k))
                else f.getD (i + k) 0) := by
  intro ord
  induction ord with
  | nil => intro _ i j k psA bfA th hk; simp at hk
  | cons q rest ih =>
    intro hnd i j k psA bfA th hk
    have hqrest : q ∉ rest := (List.nodup_cons.mp hnd).1
    have hndr : rest.Nodup := (List.nodup_cons.mp hnd).2
    cases k with
    | zero =>
      simp only [bfGo, List.getD_cons_zero, Nat.add_zero, freeCountFrom_zero]
      by_cases hcond : c.getD i 0 = 0
      · rw [if_pos hcond, bfGo_bf_stable ps c f rest _ _ _ _ _ q hqrest,
            lookup_setKey_self, if_pos hcond]
      · rw [if_neg hcond, bfGo_bf_stable ps c f rest _ _ _ _ _ q hqrest,
            lookup_setKey_self, if_neg hcond]
    | succ k1 =>
      have hk1 : k1 < rest.length := by simpa using hk
      simp only [bfGo, List.getD_cons_succ]
      by_cases hcond : c.getD i 0 = 0
      · rw [if_pos hcond, ih hndr (i + 1) (j + 1) k1 _ _ _ hk1]
        have e1 : i + 1 + k1 = i + (k1 + 1) := by omega
        have e2 : j + 1 + freeCountFrom c (i + 1) k1 = j + freeCountFrom c i (k1 + 1) := by
          rw [freeCountFrom_succ_true c i k1 hcond]; omega
        rw [e1, e2]
      · rw [if_neg hcond, ih hndr (i + 1) j k1 _ _ _ hk1]
        have e1 : i + 1 + k1 = i + (k1 + 1) := by omega
        have e2 : j + freeCountFrom c (i + 1) k1 = j + freeCountFrom c i (k1 + 1) := by
          rw [freeCountFrom_succ_false c i k1 hcond]
        rw [e1, e2]

theorem psGo_lookup (ps : List (List Rat)) (c f : List Rat) :
    ∀ (ord : List String), ord.Nodup →
      ∀ (i j k : Nat) (acc : List (String × PSEntry)), k < ord.length →
        List.lookup (ord.getD k "") (psGo ps c f ord i j acc) =
          some (if c.getD (i + k) 0 = 0 then
                  PSEntry.col (colAt ps (j + freeCountFrom c i k))
                else PSEntry.scalar (f.getD (i + k) 0)) := by
  intro ord
  induction ord with
  | nil => intro _ i j k acc hk; simp at hk
  | cons q rest ih =>
    intro hnd i j k acc hk
    have hqrest : q ∉ rest := (List.nodup_cons.mp hnd).1
    have hndr : rest.Nodup := (List.nodup_cons.mp hnd).2
    cases k with
    | zero =>
      simp only [psGo, List.getD_cons_zero, Nat.add_zero, freeCountFrom_zero]
      by_cases hcond : c.getD i 0 = 0
      · rw [if_pos hcond, psGo_stable ps c f rest _ _ _ q hqrest,
            lookup_setKey_self, if_pos hcond]
      · rw [if_neg hcond, psGo_stable ps c f rest _ _ _ q hqrest,
            lookup_setKey_self, if_neg hcond]
    | succ k1 =>
      have hk1 : k1 < rest.length := by simpa using hk
      simp only [psGo, List.getD_cons_succ]
      by_cases hcond : c.getD i 0 = 0
      · rw [if_pos hcond, ih hndr (i + 1) (j + 1) k1 _ hk1]
        have e1 : i + 1 + k1 = i + (k1 + 1) := by omega
        have e2 : j + 1 + freeCountFrom c (i + 1) k1 = j + freeCountFrom c i (k1 + 1) := by
          rw [freeCountFrom_succ_true c i k1 hcond]; omega
        rw [e1, e2]
      · rw [if_neg hcond, ih hndr (i + 1) j k1 _ hk1]
        have e1 : i + 1 + k1 = i + (k1 + 1) := by omega
        have e2 : j + freeCountFrom c (i + 1) k1 = j + freeCountFrom c i (k1 + 1) := by
          rw [freeCountFrom_succ_false c i k1 hcond]
        rw [e1, e2]

theorem bfGo_ps_lookup (ps : List (List Rat)) (c f : List Rat) :
    ∀ (ord : List String), ord.Nodup →
      ∀ (i j k : Nat) (psA : List (String × PSEntry)) (bfA : List (String × Rat))
        (th : List Rat), k < ord.length →
        List.lookup (ord.getD k "") (bfGo ps c f ord i j psA bfA th).1 =
          (if c.getD (i + k) 0 = 0 then
            some (PSEntry.col (colAt ps (j + freeCountFrom c i k)))
          else List.lookup (ord.getD k "") psA) := by
  intro ord
  induction ord with
  | nil => intro _ i j k psA bfA th hk; simp at hk
  | cons q rest ih =>
    intro hnd i j k psA bfA th hk
    have hqrest : q ∉ rest := (List.nodup_cons.mp hnd).1
    have hndr : rest.Nodup := (List.nodup_cons.mp hnd).2
    cases k with
    | zero =>
      simp only [bfGo, List.getD_cons_zero, Nat.add_zero, freeCountFrom_zero]
      by_cases hcond : c.getD i 0 = 0
      · rw [if_pos hcond, bfGo_ps_stable ps c f rest _ _ _ _ _ q hqrest,
            lookup_setKey_self, if_pos hcond]
      · rw [if_neg hcond, bfGo_ps_stable ps c f rest _ _ _ _ _ q hqrest, if_neg hcond]
    | succ k1 =>
      have hk1 : k1 < rest.length := by simpa using hk
      have hmem : rest.getD k1 "" ∈ rest := by
        rw [List.getD_eq_getElem rest "" hk1]
        exact List.getElem_mem hk1
      have hne : (rest.getD k1 "" == q) = false := by
        simp only [beq_eq_false_iff_ne]
        intro e
        exact hqrest (e ▸ hmem)
      simp only [bfGo, List.getD_cons_succ]
      by_cases hcond : c.getD i 0 = 0
      · rw [if_pos hcond, ih hndr (i + 1) (j + 1) k1 _ _ _ hk1]
        have e1 : i + 1 + k1 = i + (k1 + 1) := by omega
        have e2 : j + 1 + freeCountFrom c (i + 1) k1 = j + freeCountFrom c i (k1 + 1) := by
          rw [freeCountFrom_succ_true c i k1 hcond]; omega
        rw [e1, e2]
        by_cases hcond2 : c.getD (i + (k1 + 1)) 0 = 0
        · rw [if_pos hcond2, if_pos hcond2]
        · rw [if_neg hcond2, if_neg hcond2, lookup_setKey_ne _ _ _ _ hne]
      · rw [if_neg hcond, ih hndr (i + 1) j k1 _ _ _ hk1]
        have e1 : i + 1 + k1 = i + (k1 + 1) := by omega
        have e2 : j + freeCountFrom c (i + 1) k1 = j + freeCountFrom c i (k1 + 1) := by
          rw [freeCountFrom_succ_false c i k1 hcond]
        rw [e1, e2]

theorem bfGo_theta (ps : List (List Rat)) (c f : List Rat) :
    ∀ (ord : List String) (i j : Nat) (psA : List (String × PSEntry))
      (bfA : List (String × Rat)) (th : List Rat),
      (bfGo ps c f ord i j psA bfA th).2.2 = th ++ bfThetaVals ps c f ord i j := by
  intro ord
  induction ord with
  | nil => intro i j psA bfA th; simp [bfGo, bfThetaVals]
  | cons q rest ih =>
    intro i j psA bfA th
    by_cases hcond : c.getD i 0 = 0
    · simp only [bfGo, bfThetaVals]
      rw [if_pos hcond, if_pos hcond, ih]
      simp
    · simp only [bfGo, bfThetaVals]
      rw [if_neg hcond, if_neg hcond, ih]
      simp

theorem bfThetaVals_getD (ps : List (List Rat)) (c f : List Rat) :
    ∀ (ord : List String) (i j k : Nat), k < ord.length →
      (bfThetaVals ps c f ord i j).getD k 0 =
        (if c.getD (i + k) 0 = 0 then median (colAt ps (j + freeCountFrom c i k))
         else f.getD (i + k) 0) := by
  intro ord
  induction ord with
  | nil => intro i j k hk; simp at hk
  | cons q rest ih =>
    intro i j k hk
    cases k with
    | zero =>
      simp only [bfThetaVals, Nat.add_zero, freeCountFrom_zero]
      by_cases hcond : c.getD i 0 = 0
      · rw [if_pos hcond, List.getD_cons_zero, if_pos hcond]
      · rw [if_neg hcond, List.getD_cons_zero, if_neg hcond]
    | succ k1 =>
      have hk1 : k1 < rest.length := by simpa using hk
      simp only [bfThetaVals]
      by_cases hcond : c.getD i 0 = 0
      · rw [if_pos hcond, List.getD_cons_succ, ih (i + 1) (j + 1) k1 hk1]
        have e1 : i + 1 + k1 = i + (k1 + 1) := by omega
        have e2 : j + 1 + freeCountFrom c (i + 1) k1 = j + freeCountFrom c i (k1 + 1) := by
          rw [freeCountFrom_succ_true c i k1 hcond]; omega
        rw [e1, e2]
      · rw [if_neg hcond, List.getD_cons_succ, ih (i + 1) j k1 hk1]
        have e1 : i + 1 + k1 = i + (k1 + 1) := by omega
        have e2 : j + freeCountFrom c (i + 1) k1 = j + freeCountFrom c i (k1 + 1) := by
          rw [freeCountFrom_succ_false c i k1 hcond]
        rw [e1, e2]

/-! ### Claim theorems -/

/-- C1: after a successful `initialize`, the `ndim` recorded via `get_ndim`
equals the length of the canonical order (7 physical, 6 normalized) minus
the sum of the coordinator vector, and is non-negative, for every
coordinator produced by prior construction. -/
theorem C1_ndim_invariant (star : Option Star) (nf estF : Bool)
    (lE : Option (Rat × Rat)) (pf : Option (List Row)) (fs : FitterState)
    (h : initFitter star nf estF lE pf = .ok fs) :
    (fs.ndim : Rat) = (fs.order.length : Rat) - fs.coordinator.sum ∧ 0 ≤ fs.ndim := by
  cases star with
  | none => simp [initFitter] at h
  | some s =>
    cases nf with
    | false =>
      simp only [initFitter] at h
      split at h
      · exact absurd h (by simp)
      case _ cp heq =>
        obtain rfl := (Except.ok.injEq _ _).mp h
        have hinv : coordInv 7 cp.coordinator :=
          create_priors_coordInv heq
            (default_priors_coordInv _ _ _ _ _ (coordInv_replicate 7))
        have haux := ndim_aux false (by norm_num) hinv
        simpa [orderPhys] using haux
    | true =>
      simp only [initFitter] at h
      split at h
      · exact absurd h (by simp)
      case _ cp heq =>
        obtain rfl := (Except.ok.injEq _ _).mp h
        have hinv : coordInv 6 cp.coordinator :=
          create_priors_coordInv heq
            (default_priors_coordInv _ _ _ _ _ (coordInv_replicate 6))
        have haux := ndim_aux true (by norm_num) hinv
        simpa [orderNorm] using haux

/-- Witness for C1 at a concrete run: `star0`, physical mode, a prior file
fixing `rad`; `initialize` succeeds and the invariant holds there. -/
theorem C1_ndim_invariant_witness :
    initFitter (some star0) false false Option.none
      (some [("rad", "fixed", [1])]) = .ok fsDemo ∧
    ((fsDemo.ndim : Rat) = (fsDemo.order.length : Rat) - fsDemo.coordinator.sum ∧
      0 ≤ fsDemo.ndim) :=
  ⟨rfl, C1_ndim_invariant (some star0) false false Option.none
    (some [("rad", "fixed", [1])]) fsDemo rfl⟩

/-- C2: for a star with catalog extinction exactly zero, in both modes,
default-prior construction sets the coordinator entry at the canonical Av
index (second-to-last, `npars - 2`) to 1, the corresponding fixed entry to
0, and stores `None` for `Av` in the defaults dict — so no live
distribution exists for `Av`. -/
theorem C2_av_fixed_at_zero (star : Star) (nf estF : Bool)
    (lE : Option (Rat × Rat)) (hAv : star.Av = 0) :
    (if nf then orderNorm else orderPhys).getD ((if nf then 6 else 7) - 2) "" = "Av" ∧
    (default_priors star nf estF lE (List.replicate (if nf then 6 else 7) 0)
        (List.replicate (if nf then 6 else 7) 0)).coordinator.getD
      ((if nf then 6 else 7) - 2) 0 = 1 ∧
    (default_priors star nf estF lE (List.replicate (if nf then 6 else 7) 0)
        (List.replicate (if nf then 6 else 7) 0)).fixed.getD
      ((if nf then 6 else 7) - 2) 1 = 0 ∧
    List.lookup "Av" (default_priors star nf estF lE
        (List.replicate (if nf then 6 else 7) 0)
        (List.replicate (if nf then 6 else 7) 0)).defaults = some Option.none := by
  have hb : (star.Av == 0) = true := by simp [hAv]
  cases nf with
  | false =>
    refine ⟨by decide, ?_, ?_, ?_⟩
    · rw [default_priors_coordinator, if_pos hb]; decide
    · rw [default_priors_fixed, if_pos hb]; decide
    · rw [default_priors_lookup_Av, if_pos hb]
  | true =>
    refine ⟨by decide, ?_, ?_, ?_⟩
    · rw [default_priors_coordinator, if_pos hb]; decide
    · rw [default_priors_fixed, if_pos hb]; decide
    · rw [default_priors_lookup_Av, if_pos hb]

/-- Witness for C2 at `star0` (extinction zero), both conjuncts evaluated in
physical mode. -/
theorem C2_av_fixed_at_zero_witness :
    (if false then orderNorm else orderPhys).getD ((if false then 6 else 7) - 2) "" = "Av" ∧
    (default_priors star0 false false Option.none
        (List.replicate (if false then 6 else 7) 0)
        (List.replicate (if false then 6 else 7) 0)).coordinator.getD
      ((if false then 6 else 7) - 2) 0 = 1 ∧
    (default_priors star0 false false Option.none
        (List.replicate (if false then 6 else 7) 0)
        (List.replicate (if false then 6 else 7) 0)).fixed.getD
      ((if false then 6 else 7) - 2) 1 = 0 ∧
    List.lookup "Av" (default_priors star0 false false Option.none
        (List.replicate (if false then 6 else 7) 0)
        (List.replicate (if false then 6 else 7) 0)).defaults = some Option.none :=
  C2_av_fixed_at_zero star0 false false Option.none rfl

/-- C5 counterexample: for a concrete star with no catalog radius the code
builds `st.uniform(0.1, 10)`, whose scipy support is `[loc, loc + scale] =
[0.1, 10.1]` — not the interval `[0.1, 10]` the claim states. -/
theorem C5_rad_support_counterexample :
    List.lookup "rad" (default_priors starNoRad false false Option.none
        (List.replicate 7 0) (List.replicate 7 0)).defaults =
      some (some (Dist.uniform 0.1 10)) ∧
    uniformSupport (Dist.uniform 0.1 10) = some (0.1, 10.1) ∧
    some ((0.1 : Rat), (10.1 : Rat)) ≠ some ((0.1 : Rat), (10 : Rat)) := by
  refine ⟨?_, by norm_num [uniformSupport], by norm_num⟩
  rw [default_priors_lookup_rad_none _ _ _ _ _ rfl]

/-- C5 (amended): in physical mode, for every star without a catalog
radius, the default `rad` prior is `st.uniform(0.1, 10)` — the uniform
distribution supported on `[0.1, 10.1]` (scipy loc/scale convention) — the
missing-radius warning is emitted, and the run does not fail. -/
theorem C5_rad_fallback_amended (star : Star) (estF : Bool)
    (lE : Option (Rat × Rat)) (c f : List Rat) (hr : star.rad = Option.none) :
    List.lookup "rad" (default_priors star false estF lE c f).defaults =
      some (some (Dist.uniform 0.1 10)) ∧
    uniformSupport (Dist.uniform 0.1 10) = some (0.1, 10.1) ∧
    radWarning ∈ (default_priors star false estF lE c f).warnings ∧
    (initFitter (some star) false estF lE Option.none).isOk = true := by
  refine ⟨default_priors_lookup_rad_none star estF lE c f hr,
    by norm_num [uniformSupport], ?_, initFitter_no_priorfile_ok star false estF lE⟩
  rw [default_priors_warnings]
  simp [hr]

/-- Witness for C5 (amended) at the concrete radius-less star. -/
theorem C5_rad_fallback_amended_witness :
    List.lookup "rad" (default_priors starNoRad false false Option.none
        (List.replicate 7 0) (List.replicate 7 0)).defaults =
      some (some (Dist.uniform 0.1 10)) ∧
    uniformSupport (Dist.uniform 0.1 10) = some (0.1, 10.1) ∧
    radWarning ∈ (default_priors starNoRad false false Option.none
        (List.replicate 7 0) (List.replicate 7 0)).warnings ∧
    (initFitter (some starNoRad) false false Option.none Option.none).isOk = true :=
  C5_rad_fallback_amended starNoRad false Option.none
    (List.replicate 7 0) (List.replicate 7 0) rfl

/-- C6 (the code evaluated at the failing input): a well-formed
`truncatednormal` prior-file row reaches the misspelled `priot_dict`
reference, so `create_priors` raises `NameError` instead of storing the
standardized truncated normal under the parameter key. -/
theorem C6_truncatednormal_name_error :
    process_row false orderPhys [] cpState7
      ("teff", "truncatednormal", [5000, 100, 6000, 4000]) =
      .error (.nameError "priot_dict") := rfl

/-- C7: the default `teff` prior is a normal distribution at the measured
temperature when one is available, and otherwise the pre-computed empirical
prior from the lookup-table file (via the spec-modelled `teff_prior`). -/
theorem C7_teff_default_prior (star : Star) (nf estF : Bool)
    (lE : Option (Rat × Rat)) (c f : List Rat) :
    List.lookup "teff" (default_priors star nf estF lE c f).defaults =
      some (some (if star.get_temp then Dist.norm star.temp star.temp_e
                  else teff_prior_teff)) ∧
    teff_prior_teff = Dist.empirical "../Datafiles/teff_ppf.pkl" :=
  ⟨default_priors_lookup_teff star nf estF lE c f, rfl⟩

/-- C8 (the code evaluated at the failing input): assigning the non-bool
`'yes'` to `norm` raises `NameError` on the undefined `rInputError`, not an
`InputError` with the message `norm must be True or False.`. -/
theorem C8_norm_setter_name_error :
    norm_setter (.pystr "yes") = .error (.nameError "rInputError") ∧
    norm_setter (.pystr "yes") ≠ .error (.inputError "norm must be True or False.") :=
  ⟨rfl, by simp [norm_setter]⟩

/-- C9: every assignment to the `bma` attribute raises
`NotImplementedError`, so the BMA path the example driver advertises is
unreachable through this class. -/
theorem C9_bma_always_raises (v : PyVal) :
    bma_setter v = .error PyError.notImplementedError := rfl

/-- C10: in physical mode a prior-file row naming `norm` with kind `fixed`
is accepted (`norm` is in the accepted name list, no error is raised) and
leaves the loop state — coordinator and fixed vectors included — entirely
unchanged, because `norm` does not occur in the physical canonical order so
the `np.where` index set is empty. -/
theorem C10_norm_fixed_row_noop (st : CPState)
    (defaults : List (String × Option Dist)) (v : Rat) :
    process_row false orderPhys defaults st ("norm", "fixed", [v]) = .ok st ∧
    param_list.contains "norm" = true := by
  constructor
  · show Except.ok
      { st with coordinator := npWhereSet orderPhys "norm" 1 st.coordinator,
                fixed := npWhereSet orderPhys "norm" v st.fixed } = .ok st
    rw [npWhereSet_not_mem "norm" 1 orderPhys st.coordinator (by decide),
        npWhereSet_not_mem "norm" v orderPhys st.fixed (by decide)]
  · rfl

/-- C3: in the saved record, every free parameter's `best_fit` entry is the
median of that parameter's equal-weight posterior sample column, every
fixed parameter's entry is the stored fixed value, and the recorded
likelihood is the external log-likelihood evaluated at `best_theta` — the
full vector of exactly these per-parameter best-fit values — not at any
single sample. -/
theorem C3_best_fit_median (order : List String) (c f : List Rat)
    (ps : List (List Rat)) (ll : List Rat → Rat) (nf : Bool) (i : Nat)
    (hnd : order.Nodup) (hi : i < order.length) :
    List.lookup (order.getD i "") (saveModel order c f ps ll nf).best_fit =
      some (if c.getD i 0 = 0 then median (colAt ps (freeCountFrom c 0 i))
            else f.getD i 0) ∧
    (saveModel order c f ps ll nf).best_fit_likelihood =
      ll (saveModel order c f ps ll nf).best_theta ∧
    (saveModel order c f ps ll nf).best_theta.getD i 0 =
      (if c.getD i 0 = 0 then median (colAt ps (freeCountFrom c 0 i))
       else f.getD i 0) := by
  refine ⟨?_, rfl, ?_⟩
  · have h := bfGo_lookup ps c f order hnd 0 0 i (psGo ps c f order 0 0 []) [] [] hi
    show List.lookup (order.getD i "")
      (bfGo ps c f order 0 0 (psGo ps c f order 0 0 []) [] []).2.1 = _
    rw [h]
    simp only [Nat.zero_add]
  · have h := bfGo_theta ps c f order 0 0 (psGo ps c f order 0 0 []) [] []
    have h2 := bfThetaVals_getD ps c f order 0 0 i hi
    show (bfGo ps c f order 0 0 (psGo ps c f order 0 0 []) [] []).2.2.getD i 0 = _
    rw [h, List.nil_append, h2]
    simp only [Nat.zero_add]

/-- Witness for C3 at concrete save inputs: physical order, `Av` fixed,
two samples; checked at index 4 (the free parameter `rad`). -/
theorem C3_best_fit_median_witness :
    List.lookup (orderPhys.getD 4 "")
      (saveModel orderPhys cDemo fDemo psDemo llDemo false).best_fit =
      some (if cDemo.getD 4 0 = 0 then median (colAt psDemo (freeCountFrom cDemo 0 4))
            else fDemo.getD 4 0) ∧
    (saveModel orderPhys cDemo fDemo psDemo llDemo false).best_fit_likelihood =
      llDemo (saveModel orderPhys cDemo fDemo psDemo llDemo false).best_theta ∧
    (saveModel orderPhys cDemo fDemo psDemo llDemo false).best_theta.getD 4 0 =
      (if cDemo.getD 4 0 = 0 then median (colAt psDemo (freeCountFrom cDemo 0 4))
       else fDemo.getD 4 0) :=
  C3_best_fit_median orderPhys cDemo fDemo psDemo llDemo false 4 (by decide) (by decide)

/-- C4 counterexample: at a concrete save, the fixed parameter `Av` is
stored in `posterior_samples` as the bare scalar `0`, which is not the
fixed value broadcast to a column of the sample count's length. -/
theorem C4_broadcast_counterexample :
    List.lookup "Av"
      (saveModel orderPhys cDemo fDemo psDemo llDemo false).posterior_samples =
      some (PSEntry.scalar 0) ∧
    PSEntry.scalar 0 ≠ PSEntry.col (List.replicate psDemo.length 0) :=
  ⟨rfl, fun h => PSEntry.noConfusion h⟩

/-- C4 (amended): every fixed parameter is present in the persisted
`posterior_samples` mapping with its fixed value as a bare scalar — not
broadcast — while every free parameter's entry is its sample column, whose
length equals the posterior sample count. -/
theorem C4_fixed_scalar_amended (order : List String) (c f : List Rat)
    (ps : List (List Rat)) (ll : List Rat → Rat) (nf : Bool) (i : Nat)
    (hnd : order.Nodup) (hi : i < order.length) :
    List.lookup (order.getD i "")
      (saveModel order c f ps ll nf).posterior_samples =
      some (if c.getD i 0 = 0 then PSEntry.col (colAt ps (freeCountFrom c 0 i))
            else PSEntry.scalar (f.getD i 0)) ∧
    (colAt ps (freeCountFrom c 0 i)).length = ps.length := by
  refine ⟨?_, colAt_length ps _⟩
  show List.lookup (order.getD i "")
    (bfGo ps c f order 0 0 (psGo ps c f order 0 0 []) [] []).1 = _
  rw [bfGo_ps_lookup ps c f order hnd 0 0 i (psGo ps c f order 0 0 []) [] [] hi,
      psGo_lookup ps c f order hnd 0 0 i [] hi]
  simp only [Nat.zero_add]
  by_cases hcond : c.getD i 0 = 0
  · rw [if_pos hcond, if_pos hcond]
  · rw [if_neg hcond, if_neg hcond]

/-- Witness for C4 (amended) at the same concrete save inputs, checked at
index 5 (the fixed parameter `Av`). -/
theorem C4_fixed_scalar_amended_witness :
    List.lookup (orderPhys.getD 5 "")
      (saveModel orderPhys cDemo fDemo psDemo llDemo false).posterior_samples =
      some (if cDemo.getD 5 0 = 0 then PSEntry.col (colAt psDemo (freeCountFrom cDemo 0 5))
            else PSEntry.scalar (fDemo.getD 5 0)) ∧
    (colAt psDemo (freeCountFrom cDemo 0 5)).length = psDemo.length :=
  C4_fixed_scalar_amended orderPhys cDemo fDemo psDemo llDemo false 5
    (by decide) (by decide)

end Ariadne
